/-
Verification of the trading decision and survival engine of an autonomous
prediction-market trading agent (position sizing, execution guards,
self-funding ledger and death check).

Numeric model: Python floats are modelled as exact rationals.  The source
rounds dollar amounts to cents with round(x, 2); Python round is
round-half-to-even, modelled exactly on rationals by roundHalfEven below.
-/
import Mathlib

namespace AiAgent

/-- Python round-half-to-even on an exact rational, to an integer. -/
def roundHalfEven (x : ℚ) : ℤ :=
  if x - (⌊x⌋ : ℚ) < 1/2 then ⌊x⌋
  else if 1/2 < x - (⌊x⌋ : ℚ) then ⌊x⌋ + 1
  else if ⌊x⌋ % 2 = 0 then ⌊x⌋ else ⌊x⌋ + 1

/-- Python round(x, 2): round to cents, half to even. -/
def pyRound2 (x : ℚ) : ℚ := (roundHalfEven (x * 100) : ℚ) / 100

theorem roundHalfEven_le (x : ℚ) : (roundHalfEven x : ℚ) ≤ x + 1/2 := by
  unfold roundHalfEven
  have hle : ((⌊x⌋ : ℤ) : ℚ) ≤ x := Int.floor_le x
  split_ifs with h1 h2 h3 <;> push_cast <;> linarith

theorem pyRound2_le (x : ℚ) : pyRound2 x ≤ x + 1/200 := by
  unfold pyRound2
  have h := roundHalfEven_le (x * 100)
  have h100 : (0:ℚ) < 100 := by norm_num
  rw [div_le_iff₀ h100]
  linarith

/-! ## Data model (scanner.py, fair_value.py, position_sizer.py) -/

/-- ScannedMarket (scanner.py): lightweight market representation. -/
structure ScannedMarket where
  condition_id : String
  question : String
  slug : String
  outcome_yes_token : String
  outcome_no_token : String
  yes_price : ℚ
  no_price : ℚ
  volume_24h : ℚ
  liquidity : ℚ
  end_date : String
  category : String
  description : String
  resolution_source : String
  neg_risk : Bool
deriving DecidableEq

/-- The recommended side of a FairValueEstimate ("YES" or "NO"). -/
inductive Side where
  | yes
  | no
deriving DecidableEq

/-- FairValueEstimate (fair_value.py). -/
structure FairValueEstimate where
  market : ScannedMarket
  fair_yes_prob : ℚ
  confidence : ℚ
  reasoning : String
  edge : ℚ
  abs_edge : ℚ
  recommended_side : Side
  input_tokens : ℤ
  output_tokens : ℤ
deriving DecidableEq

/-- TradeSignal (position_sizer.py). -/
structure TradeSignal where
  estimate : FairValueEstimate
  side : Side
  token_id : String
  entry_price : ℚ
  fair_price : ℚ
  edge : ℚ
  kelly_fraction : ℚ
  capped_fraction : ℚ
  position_size_usd : ℚ
  expected_value : ℚ
deriving DecidableEq

/-- KellyPositionSizer constructor state (position_sizer.py lines 75-83);
max_position_pct and kelly_fraction are already stored as fractions. -/
structure KellyPositionSizer where
  bankroll : ℚ
  max_position_pct : ℚ
  kelly_fraction : ℚ
deriving DecidableEq

/-- Side resolution of KellyPositionSizer.size (lines 88-95): entry price. -/
def resolvedEntry (est : FairValueEstimate) : ℚ :=
  match est.recommended_side with
  | .yes => est.market.yes_price
  | .no => est.market.no_price

/-- Side resolution of KellyPositionSizer.size (lines 88-95): fair price. -/
def resolvedFair (est : FairValueEstimate) : ℚ :=
  match est.recommended_side with
  | .yes => est.fair_yes_prob
  | .no => 1 - est.fair_yes_prob

/-- Side resolution of KellyPositionSizer.size (lines 88-95): token to buy. -/
def resolvedToken (est : FairValueEstimate) : String :=
  match est.recommended_side with
  | .yes => est.market.outcome_yes_token
  | .no => est.market.outcome_no_token

/-- Net odds b = (1 - entry_price) / entry_price (line 104). -/
def kellyB (est : FairValueEstimate) : ℚ :=
  (1 - resolvedEntry est) / resolvedEntry est

/-- Raw Kelly fraction (b * p - q) / b (line 108). -/
def kellyRaw (est : FairValueEstimate) : ℚ :=
  (kellyB est * resolvedFair est - (1 - resolvedFair est)) / kellyB est

/-- KellyPositionSizer.size (position_sizer.py lines 85-155).  The local
names of the source (kelly_adjusted, capped, position_usd) are inlined:
capped is min(kelly_raw * kelly_fraction * confidence, max_position_pct)
and position_usd is capped * bankroll. -/
def size (z : KellyPositionSizer) (est : FairValueEstimate) : Option TradeSignal :=
  if resolvedEntry est ≤ 1/100 ∨ resolvedEntry est ≥ 99/100 then none
  else if resolvedFair est ≤ resolvedEntry est then none
  else if kellyRaw est ≤ 0 then none
  else if min (kellyRaw est * z.kelly_fraction * est.confidence) z.max_position_pct
           * z.bankroll < 1 then none
  else
    some { estimate := est
           side := est.recommended_side
           token_id := resolvedToken est
           entry_price := resolvedEntry est
           fair_price := resolvedFair est
           edge := resolvedFair est - resolvedEntry est
           kelly_fraction := kellyRaw est
           capped_fraction :=
             min (kellyRaw est * z.kelly_fraction * est.confidence) z.max_position_pct
           position_size_usd :=
             pyRound2 (min (kellyRaw est * z.kelly_fraction * est.confidence)
               z.max_position_pct * z.bankroll)
           expected_value :=
             pyRound2 ((resolvedFair est - resolvedEntry est) *
               (min (kellyRaw est * z.kelly_fraction * est.confidence)
                 z.max_position_pct * z.bankroll)) }

/-- Portfolio exposure ceiling of size_batch (line 165): bankroll * 0.5. -/
def maxTotalExposure (z : KellyPositionSizer) : ℚ := z.bankroll * (1/2)

/-- The shrink branch of size_batch (lines 174-178): if a signal exceeds
the remaining headroom it is resized to round(remaining, 2) and its
expected value recomputed from the resized amount. -/
def shrinkAgainst (remaining : ℚ) (sig : TradeSignal) : TradeSignal :=
  if sig.position_size_usd > remaining then
    { sig with position_size_usd := pyRound2 remaining
               expected_value := pyRound2 (sig.edge * pyRound2 remaining) }
  else sig

/-- Loop of KellyPositionSizer.size_batch (lines 163-183), with the running
total exposure made explicit; a signal that would exceed the remaining
headroom is modified by shrinkAgainst before being appended and counted. -/
def sizeBatchGo (z : KellyPositionSizer) :
    List FairValueEstimate → ℚ → List TradeSignal
  | [], _ => []
  | est :: rest, total =>
    if total ≥ maxTotalExposure z then []
    else
      match size z est with
      | none => sizeBatchGo z rest total
      | some sig =>
        shrinkAgainst (maxTotalExposure z - total) sig ::
          sizeBatchGo z rest
            (total + (shrinkAgainst (maxTotalExposure z - total) sig).position_size_usd)

/-- KellyPositionSizer.size_batch (position_sizer.py lines 157-183). -/
def sizeBatch (z : KellyPositionSizer) (ests : List FairValueEstimate) :
    List TradeSignal :=
  sizeBatchGo z ests 0

/-- Aggregate dollar exposure of a list of signals. -/
def exposure (l : List TradeSignal) : ℚ :=
  (l.map TradeSignal.position_size_usd).sum

/-! ## Concrete inputs used in witnesses and counterexamples -/

/-- A market quoted at 0.50 on both sides. -/
def mkt1 : ScannedMarket :=
  { condition_id := "c1", question := "q", slug := "m1",
    outcome_yes_token := "tokYes", outcome_no_token := "tokNo",
    yes_price := 1/2, no_price := 1/2, volume_24h := 0, liquidity := 0,
    end_date := "", category := "", description := "", resolution_source := "",
    neg_risk := false }

/-- An estimate with full confidence that YES is worth 0.75 on mkt1. -/
def est1 : FairValueEstimate :=
  { market := mkt1, fair_yes_prob := 3/4, confidence := 1, reasoning := "",
    edge := 1/4, abs_edge := 1/4, recommended_side := .yes,
    input_tokens := 0, output_tokens := 0 }

/-- Sizer with bankroll 100.072, 6 percent cap, quarter Kelly. -/
def z1 : KellyPositionSizer :=
  { bankroll := 12509/125, max_position_pct := 3/50, kelly_fraction := 1/4 }

/-- Sizer with bankroll 100.07, 6 percent cap, quarter Kelly. -/
def z2 : KellyPositionSizer :=
  { bankroll := 10007/100, max_position_pct := 3/50, kelly_fraction := 1/4 }

theorem exposure_nil : exposure [] = 0 := rfl

theorem exposure_cons (s : TradeSignal) (l : List TradeSignal) :
    exposure (s :: l) = s.position_size_usd + exposure l := by
  simp [exposure]

theorem sizeBatchGo_exposure_le (z : KellyPositionSizer)
    (ests : List FairValueEstimate) (total : ℚ) :
    total + exposure (sizeBatchGo z ests total) ≤
      max total (maxTotalExposure z + 1/200) := by
  induction ests generalizing total with
  | nil =>
    simp only [sizeBatchGo, exposure_nil, add_zero]
    exact le_max_left total (maxTotalExposure z + 1/200)
  | cons est rest ih =>
    rw [sizeBatchGo]
    split_ifs with hge
    · simp only [exposure_nil, add_zero]
      exact le_max_left total (maxTotalExposure z + 1/200)
    · push_neg at hge
      cases hs : size z est with
      | none => exact ih total
      | some sig =>
        simp only [exposure_cons]
        have hstep : total + (shrinkAgainst (maxTotalExposure z - total) sig).position_size_usd ≤
            maxTotalExposure z + 1/200 := by
          unfold shrinkAgainst
          split_ifs with hgt
          · have hr := pyRound2_le (maxTotalExposure z - total)
            simp only
            linarith
          · push_neg at hgt
            linarith
        have hrec := ih (total + (shrinkAgainst (maxTotalExposure z - total) sig).position_size_usd)
        rw [max_eq_right hstep] at hrec
        have := le_max_right total (maxTotalExposure z + 1/200)
        linarith

theorem sizeBatchGo_decomp (z : KellyPositionSizer)
    (ests : List FairValueEstimate) (total : ℚ)
    (l₁ l₂ : List TradeSignal) (sig : TradeSignal) :
    sizeBatchGo z ests total = l₁ ++ sig :: l₂ →
    ∃ est sigRaw, est ∈ ests ∧ size z est = some sigRaw ∧
      sig = shrinkAgainst (maxTotalExposure z - (total + exposure l₁)) sigRaw := by
  induction ests generalizing total l₁ l₂ with
  | nil =>
    intro h
    rw [sizeBatchGo] at h
    exact absurd h (by simp)
  | cons est rest ih =>
    intro h
    rw [sizeBatchGo] at h
    split_ifs at h with hge
    · exact absurd h (by simp)
    · cases hs : size z est with
      | none =>
        rw [hs] at h
        obtain ⟨e, sr, hmem, hsz, hshr⟩ := ih total l₁ l₂ h
        exact ⟨e, sr, List.mem_cons_of_mem est hmem, hsz, hshr⟩
      | some sigRaw =>
        rw [hs] at h
        cases l₁ with
        | nil =>
          rw [List.nil_append] at h
          injection h with h1 h2
          refine ⟨est, sigRaw, List.mem_cons_self est rest, hs, ?_⟩
          rw [← h1, exposure_nil, add_zero]
        | cons a l₁ =>
          rw [List.cons_append] at h
          injection h with h1 h2
          obtain ⟨e, sr, hmem, hsz, hshr⟩ := ih _ l₁ l₂ h2
          refine ⟨e, sr, List.mem_cons_of_mem est hmem, hsz, ?_⟩
          rw [hshr]
          congr 1
          rw [← h1, exposure_cons]
          ring

/-- C1 (amended): for bankroll B > 0, the aggregate exposure of size_batch
never exceeds 0.5 * B plus half a cent (the cent-rounding of the shrunk
size can overshoot the exact headroom by up to 1/200), and every emitted
signal is the sized signal shrunk against the remaining headroom
0.5 * B minus the exposure already admitted: when the sized signal exceeds
that headroom its position becomes round(headroom, 2), with expected value
recomputed from the rounded size, rather than the signal being rejected. -/
theorem c1_size_batch_exposure (z : KellyPositionSizer)
    (ests : List FairValueEstimate) (hB : 0 < z.bankroll) :
    exposure (sizeBatch z ests) ≤ z.bankroll * (1/2) + 1/200 ∧
    (∀ l₁ sig l₂, sizeBatch z ests = l₁ ++ sig :: l₂ →
      ∃ est sigRaw, est ∈ ests ∧ size z est = some sigRaw ∧
        sig = shrinkAgainst (maxTotalExposure z - exposure l₁) sigRaw) := by
  constructor
  · have h := sizeBatchGo_exposure_le z ests 0
    have hpos : (0:ℚ) ≤ maxTotalExposure z + 1/200 := by
      unfold maxTotalExposure
      linarith
    rw [max_eq_right hpos] at h
    unfold maxTotalExposure at h
    unfold sizeBatch
    linarith
  · intro l₁ sig l₂ h
    obtain ⟨e, sr, hmem, hsz, hshr⟩ := sizeBatchGo_decomp z ests 0 l₁ l₂ sig h
    refine ⟨e, sr, hmem, hsz, ?_⟩
    rw [hshr]
    norm_num

/-- C1 witness: the amended bound at a concrete sizer and batch. -/
theorem c1_witness :
    exposure (sizeBatch z2 [est1]) ≤ z2.bankroll * (1/2) + 1/200 :=
  (c1_size_batch_exposure z2 [est1] (by norm_num [z2])).1

/-- C1 counterexample: with bankroll 100.072 and nine identical estimates,
size_batch admits eight signals of 6.00 and shrinks the ninth to
round(2.036, 2) = 2.04, so the aggregate exposure 50.04 strictly exceeds
0.5 * bankroll = 50.036; the shrunk size also differs from the exact
remaining headroom 2.036. -/
theorem c1_counterexample :
    exposure (sizeBatch z1 (List.replicate 9 est1)) = 1251/25 ∧
    z1.bankroll * (1/2) < 1251/25 := by
  constructor
  · norm_num [sizeBatch, sizeBatchGo, size, shrinkAgainst, resolvedEntry, resolvedFair,
      resolvedToken, kellyRaw, kellyB, est1, mkt1, z1, maxTotalExposure,
      pyRound2, roundHalfEven, exposure, List.replicate]
  · norm_num [z1]

/-- C2 (amended): size returns none exactly when the resolved entry price
is outside (0.01, 0.99), or the resolved fair price does not exceed the
entry price, or the raw Kelly fraction is nonpositive, or the dollar
amount is below the 1-unit dust floor; otherwise the signal carries the
raw Kelly fraction, a capped fraction min(f * 0.25 * confidence,
max_position_pct) never exceeding max_position_pct, and a position of
capped_fraction * bankroll rounded to cents (not the exact product). -/
theorem c2_size_characterization (z : KellyPositionSizer)
    (est : FairValueEstimate) (hk : z.kelly_fraction = 1/4) :
    (size z est = none ↔
      ((resolvedEntry est ≤ 1/100 ∨ resolvedEntry est ≥ 99/100) ∨
       resolvedFair est ≤ resolvedEntry est ∨
       kellyRaw est ≤ 0 ∨
       min (kellyRaw est * (1/4) * est.confidence) z.max_position_pct * z.bankroll < 1)) ∧
    (∀ sig, size z est = some sig →
      sig.kelly_fraction = kellyRaw est ∧
      sig.capped_fraction = min (kellyRaw est * (1/4) * est.confidence) z.max_position_pct ∧
      sig.capped_fraction ≤ z.max_position_pct ∧
      sig.position_size_usd = pyRound2 (sig.capped_fraction * z.bankroll)) := by
  unfold size
  rw [hk]
  split_ifs with h1 h2 h3 h4
  · exact ⟨iff_of_true rfl (Or.inl h1), fun sig hsig => absurd hsig (by simp)⟩
  · exact ⟨iff_of_true rfl (Or.inr (Or.inl h2)), fun sig hsig => absurd hsig (by simp)⟩
  · exact ⟨iff_of_true rfl (Or.inr (Or.inr (Or.inl h3))),
      fun sig hsig => absurd hsig (by simp)⟩
  · exact ⟨iff_of_true rfl (Or.inr (Or.inr (Or.inr h4))),
      fun sig hsig => absurd hsig (by simp)⟩
  · constructor
    · refine iff_of_false (by simp) ?_
      intro h
      rcases h with h | h | h | h
      · exact h1 h
      · exact h2 h
      · exact h3 h
      · exact h4 h
    · intro sig hsig
      have heq := Option.some.inj hsig
      rw [← heq]
      exact ⟨rfl, rfl, min_le_right _ _, rfl⟩

/-- C2 witness: the characterization applied at a concrete sizer and
estimate where no rejection condition holds. -/
theorem c2_witness : size z2 est1 ≠ none := by
  have h := (c2_size_characterization z2 est1 rfl).1
  intro hnone
  have hd := h.mp hnone
  norm_num [resolvedEntry, resolvedFair, kellyRaw, kellyB, est1, mkt1, z2] at hd

/-- C2 counterexample: at bankroll 100.07 the emitted signal has
capped_fraction 0.06 but position_size_usd 6.00, while
capped_fraction * bankroll = 6.0042, so the claimed equality
position_size_usd = capped_fraction * bankroll fails. -/
theorem c2_counterexample :
    (size z2 est1).map TradeSignal.position_size_usd = some 6 ∧
    (size z2 est1).map TradeSignal.capped_fraction = some (3/50) ∧
    (3/50 : ℚ) * z2.bankroll ≠ 6 := by
  refine ⟨?_, ?_, ?_⟩
  · norm_num [size, resolvedEntry, resolvedFair, resolvedToken, kellyRaw, kellyB,
      est1, mkt1, z2, pyRound2, roundHalfEven, Option.map]
  · norm_num [size, resolvedEntry, resolvedFair, resolvedToken, kellyRaw, kellyB,
      est1, mkt1, z2, Option.map]
  · norm_num [z2]

/-! ## Self-funding and death check (self_funding.py)

State persistence is modelled explicitly: a World carries the in-memory
AgentState and the on-disk document (the JSON object written to
agent_state.json, as a flat key/value list).  Python floats are rationals,
Python ints are integers, and trade-history entries keep the shape of the
dicts appended by record_trade. -/

/-- One entry of AgentState.trade_history (self_funding.py lines 81-86). -/
structure TradeRecord where
  pnl : ℚ
  api_cost : ℚ
  bankroll_after : ℚ
  timestamp : String
deriving DecidableEq

/-- AgentState (self_funding.py lines 23-39). -/
structure AgentState where
  starting_bankroll : ℚ
  current_bankroll : ℚ
  total_trades : ℤ
  winning_trades : ℤ
  losing_trades : ℤ
  total_pnl : ℚ
  total_api_cost : ℚ
  total_fees : ℚ
  positions_open : ℤ
  started_at : String
  last_cycle_at : String
  cycles_completed : ℤ
  is_alive : Bool
  trade_history : List TradeRecord
deriving DecidableEq

/-- A JSON-like value of the persisted document. -/
inductive Val where
  | num (q : ℚ)
  | int (n : ℤ)
  | bool (b : Bool)
  | str (s : String)
  | hist (h : List TradeRecord)
deriving DecidableEq

/-- Serialization used by AgentState.save (line 43): the full __dict__ of
the dataclass, in field declaration order. -/
def toDoc (s : AgentState) : List (String × Val) :=
  [ ("starting_bankroll", .num s.starting_bankroll),
    ("current_bankroll", .num s.current_bankroll),
    ("total_trades", .int s.total_trades),
    ("winning_trades", .int s.winning_trades),
    ("losing_trades", .int s.losing_trades),
    ("total_pnl", .num s.total_pnl),
    ("total_api_cost", .num s.total_api_cost),
    ("total_fees", .num s.total_fees),
    ("positions_open", .int s.positions_open),
    ("started_at", .str s.started_at),
    ("last_cycle_at", .str s.last_cycle_at),
    ("cycles_completed", .int s.cycles_completed),
    ("is_alive", .bool s.is_alive),
    ("trade_history", .hist s.trade_history) ]

/-- The schema fields of AgentState, for stating per-field properties. -/
inductive StateField where
  | startingBankroll | currentBankroll | totalTrades | winningTrades
  | losingTrades | totalPnl | totalApiCost | totalFees | positionsOpen
  | startedAt | lastCycleAt | cyclesCompleted | isAlive | tradeHistory
deriving DecidableEq

/-- The __dict__ key of each schema field. -/
def fieldName : StateField → String
  | .startingBankroll => "starting_bankroll"
  | .currentBankroll => "current_bankroll"
  | .totalTrades => "total_trades"
  | .winningTrades => "winning_trades"
  | .losingTrades => "losing_trades"
  | .totalPnl => "total_pnl"
  | .totalApiCost => "total_api_cost"
  | .totalFees => "total_fees"
  | .positionsOpen => "positions_open"
  | .startedAt => "started_at"
  | .lastCycleAt => "last_cycle_at"
  | .cyclesCompleted => "cycles_completed"
  | .isAlive => "is_alive"
  | .tradeHistory => "trade_history"

/-- Read one schema field of a state as a document value. -/
def getField : StateField → AgentState → Val
  | .startingBankroll, s => .num s.starting_bankroll
  | .currentBankroll, s => .num s.current_bankroll
  | .totalTrades, s => .int s.total_trades
  | .winningTrades, s => .int s.winning_trades
  | .losingTrades, s => .int s.losing_trades
  | .totalPnl, s => .num s.total_pnl
  | .totalApiCost, s => .num s.total_api_cost
  | .totalFees, s => .num s.total_fees
  | .positionsOpen, s => .int s.positions_open
  | .startedAt, s => .str s.started_at
  | .lastCycleAt, s => .str s.last_cycle_at
  | .cyclesCompleted, s => .int s.cycles_completed
  | .isAlive, s => .bool s.is_alive
  | .tradeHistory, s => .hist s.trade_history

/-- The hasattr check of AgentState.load (line 53): does a document key
name a schema field of the current AgentState. -/
def parseField (k : String) : Option StateField :=
  if k = "starting_bankroll" then some .startingBankroll
  else if k = "current_bankroll" then some .currentBankroll
  else if k = "total_trades" then some .totalTrades
  else if k = "winning_trades" then some .winningTrades
  else if k = "losing_trades" then some .losingTrades
  else if k = "total_pnl" then some .totalPnl
  else if k = "total_api_cost" then some .totalApiCost
  else if k = "total_fees" then some .totalFees
  else if k = "positions_open" then some .positionsOpen
  else if k = "started_at" then some .startedAt
  else if k = "last_cycle_at" then some .lastCycleAt
  else if k = "cycles_completed" then some .cyclesCompleted
  else if k = "is_alive" then some .isAlive
  else if k = "trade_history" then some .tradeHistory
  else none

/-- setattr of one recognized field (line 54); a value whose JSON shape
does not match the field is left alone (save always writes the matching
shape, so this is only reachable for hand-edited documents). -/
def setF : StateField → Val → AgentState → AgentState
  | .startingBankroll, .num q, s => { s with starting_bankroll := q }
  | .currentBankroll, .num q, s => { s with current_bankroll := q }
  | .totalTrades, .int n, s => { s with total_trades := n }
  | .winningTrades, .int n, s => { s with winning_trades := n }
  | .losingTrades, .int n, s => { s with losing_trades := n }
  | .totalPnl, .num q, s => { s with total_pnl := q }
  | .totalApiCost, .num q, s => { s with total_api_cost := q }
  | .totalFees, .num q, s => { s with total_fees := q }
  | .positionsOpen, .int n, s => { s with positions_open := n }
  | .startedAt, .str t, s => { s with started_at := t }
  | .lastCycleAt, .str t, s => { s with last_cycle_at := t }
  | .cyclesCompleted, .int n, s => { s with cycles_completed := n }
  | .isAlive, .bool b, s => { s with is_alive := b }
  | .tradeHistory, .hist h, s => { s with trade_history := h }
  | _, _, s => s

/-- Non-field names for which hasattr(state, k) is true on an AgentState
instance: the two methods defined by the class, the dataclass machinery,
and the special attributes inherited from object (the attribute surface
reported by dir() on a plain dataclass instance under CPython 3.11+;
names such as __qualname__ that live only on the metaclass are not
reachable by instance attribute lookup and so stay outside this list). -/
def classAttrNames : List String :=
  ["save", "load",
   "__annotations__", "__class__", "__dataclass_fields__", "__dataclass_params__",
   "__delattr__", "__dict__", "__dir__", "__doc__", "__eq__", "__format__",
   "__ge__", "__getattribute__", "__getstate__", "__gt__", "__hash__",
   "__init__", "__init_subclass__", "__le__", "__lt__", "__match_args__",
   "__module__", "__ne__", "__new__", "__reduce__", "__reduce_ex__",
   "__repr__", "__setattr__", "__sizeof__", "__str__", "__subclasshook__",
   "__weakref__"]

/-- Attribute names whose setattr raises for every value shape a stored
document can hold here: __dict__ demands a dict, __class__ a class, and
__weakref__ is not writable; the raise lands in the except handler of
load, which discards the merge. -/
def raisingAttrNames : List String := ["__class__", "__dict__", "__weakref__"]

/-- How the hasattr/setattr pair of load (lines 53-54) treats one
document key. -/
inductive AttrKind where
  | field (f : StateField)
  | shadow
  | raising
  | missing
deriving DecidableEq

/-- Classify a document key: a schema field is merged; another name on
the attribute surface is setattr-ed as a shadowing instance attribute
(or raises, for the names above); a name that is no attribute at all
fails hasattr and is skipped. -/
def attrKind (k : String) : AttrKind :=
  match parseField k with
  | some f => .field f
  | none =>
    if k ∈ raisingAttrNames then .raising
    else if k ∈ classAttrNames then .shadow
    else .missing

/-- setattr on a non-field attribute name: insert or overwrite the key in
the instance __dict__ (modelled as an association list in insertion
order). -/
def updateAssoc : List (String × Val) → String → Val → List (String × Val)
  | [], k, v => [(k, v)]
  | (k1, v1) :: rest, k, v =>
    if k1 = k then (k1, v) :: rest else (k1, v1) :: updateAssoc rest k v

/-- The merge loop of AgentState.load (lines 52-54): fold the document
over the schema fields and the shadow instance attributes; none models a
setattr that raised, which aborts the loop into the except handler. -/
def loadGo : AgentState → List (String × Val) → List (String × Val) →
    Option (AgentState × List (String × Val))
  | s, shadow, [] => some (s, shadow)
  | s, shadow, (k, v) :: rest =>
    match attrKind k with
    | .field f => loadGo (setF f v s) shadow rest
    | .shadow => loadGo s (updateAssoc shadow k v) rest
    | .raising => none
    | .missing => loadGo s shadow rest

/-- The dataclass defaults of AgentState (lines 26-39); both bankroll
fields default to config.starting_bankroll, passed in as cfgStart. -/
def defaultState (cfgStart : ℚ) : AgentState :=
  { starting_bankroll := cfgStart, current_bankroll := cfgStart,
    total_trades := 0, winning_trades := 0, losing_trades := 0,
    total_pnl := 0, total_api_cost := 0, total_fees := 0,
    positions_open := 0, started_at := "", last_cycle_at := "",
    cycles_completed := 0, is_alive := true, trade_history := [] }

/-- AgentState.load (lines 45-60) on a readable document: start from the
dataclass defaults and merge every key in order; the result is the
schema fields together with any shadow instance attributes created by
setattr on method or dunder names.  When a setattr raises, the except
handler logs, and the code falls through to a fresh default state whose
started_at is stamped with the current time (now). -/
def load (cfgStart : ℚ) (now : String) (doc : List (String × Val)) :
    AgentState × List (String × Val) :=
  match loadGo (defaultState cfgStart) [] doc with
  | some r => r
  | none => ({ defaultState cfgStart with started_at := now }, [])

/-- In-memory state plus the persisted document on disk. -/
structure World where
  mem : AgentState
  disk : List (String × Val)
deriving DecidableEq

/-- AgentState.save (lines 41-43): overwrite the disk with the full
serialized state. -/
def save (w : World) : World :=
  { w with disk := toDoc w.mem }

/-- DeathCheck.is_dead (self_funding.py lines 176-187): returns the flag
and the world after any transition. -/
def isDead (thr : ℚ) (w : World) : Bool × World :=
  if w.mem.current_bankroll ≤ thr then
    (true, save { w with mem := { w.mem with is_alive := false } })
  else (false, w)

/-- Python int(): truncation toward zero. -/
def truncToInt (x : ℚ) : ℤ := if 0 ≤ x then ⌊x⌋ else ⌈x⌉

/-- The dict returned by DeathCheck.health_report (lines 189-202). -/
structure HealthReport where
  alive : Bool
  bankroll : ℚ
  total_pnl : ℚ
  api_cost : ℚ
  net_profit : ℚ
  trades : ℤ
  cycles : ℤ
  runway_cycles : ℤ
deriving DecidableEq

/-- DeathCheck.health_report (lines 189-202).  The "alive" entry calls
is_dead first, which may mutate and persist the state; the remaining
entries read the state after that call. -/
def healthReport (thr : ℚ) (w : World) : HealthReport × World :=
  ({ alive := !(isDead thr w).1
     bankroll := (isDead thr w).2.mem.current_bankroll
     total_pnl := (isDead thr w).2.mem.total_pnl
     api_cost := (isDead thr w).2.mem.total_api_cost
     net_profit := (isDead thr w).2.mem.total_pnl - (isDead thr w).2.mem.total_api_cost
     trades := (isDead thr w).2.mem.total_trades
     cycles := (isDead thr w).2.mem.cycles_completed
     runway_cycles :=
       max 0 (truncToInt (((isDead thr w).2.mem.current_bankroll - thr) / 2)) },
   (isDead thr w).2)

/-- Counter updates of record_trade (lines 71-73). -/
def recordCounts (pnl c : ℚ) (s : AgentState) : AgentState :=
  { s with total_trades := s.total_trades + 1,
           total_pnl := s.total_pnl + pnl,
           total_api_cost := s.total_api_cost + c }

/-- Win/loss counting of record_trade (lines 75-78): pnl > 0 is a win,
anything else (including 0) a loss. -/
def recordWinLoss (pnl : ℚ) (s : AgentState) : AgentState :=
  if 0 < pnl then { s with winning_trades := s.winning_trades + 1 }
  else { s with losing_trades := s.losing_trades + 1 }

/-- Bankroll update of record_trade (line 80). -/
def applyPnl (pnl c : ℚ) (s : AgentState) : AgentState :=
  { s with current_bankroll := s.current_bankroll + pnl - c }

/-- History truncation of record_trade (lines 89-90): keep the last 1000. -/
def truncHistory (h : List TradeRecord) : List TradeRecord :=
  if h.length > 1000 then h.drop (h.length - 1000) else h

/-- History append of record_trade (lines 81-86); bankroll_after reads the
already-updated bankroll. -/
def appendHistory (pnl c : ℚ) (now : String) (s : AgentState) : AgentState :=
  { s with trade_history :=
      truncHistory (s.trade_history ++ [⟨pnl, c, s.current_bankroll, now⟩]) }

/-- SelfFundingManager.record_trade (self_funding.py lines 69-92). -/
def recordTrade (pnl c : ℚ) (now : String) (w : World) : World :=
  save { w with mem :=
    appendHistory pnl c now (applyPnl pnl c (recordWinLoss pnl (recordCounts pnl c w.mem))) }

/-- SelfFundingManager.sync_balance_from_chain (self_funding.py lines
115-138).  query is the outcome of get_usdc_balance: none when the balance
query raised, some b when it returned b. -/
def syncBalanceFromChain (w : World) (query : Option ℚ) : World :=
  match query with
  | none => w
  | some on_chain =>
    if 0 < on_chain then
      if 1/2 < |on_chain - w.mem.current_bankroll| then
        save { w with mem := { w.mem with current_bankroll := on_chain } }
      else w
    else w

/-- A dead-broke world: default state with zero bankroll, nothing on disk. -/
def wDead : World := { mem := defaultState 0, disk := [] }

/-- A healthy world: default state with bankroll 50, disk in sync. -/
def wAlive : World := { mem := defaultState 50, disk := toDoc (defaultState 50) }

theorem getField_setF (f g : StateField) (v : Val) (s : AgentState) (h : f ≠ g) :
    getField f (setF g v s) = getField f s := by
  cases g <;> cases v <;> cases f <;> first | rfl | exact absurd rfl h

theorem attrKind_field_inv (k : String) (g : StateField) (h : attrKind k = .field g) :
    parseField k = some g := by
  unfold attrKind at h
  cases hp : parseField k with
  | some f =>
    rw [hp] at h
    injection h with h1
    rw [h1]
  | none =>
    rw [hp] at h
    split_ifs at h

theorem loadGo_toDoc (cfg : ℚ) (sh : List (String × Val)) (s : AgentState) :
    loadGo (defaultState cfg) sh (toDoc s) = some (s, sh) := by
  cases s
  rfl

theorem loadGo_append (l1 l2 : List (String × Val)) : ∀ (s : AgentState)
    (sh : List (String × Val)),
    loadGo s sh (l1 ++ l2) =
      match loadGo s sh l1 with
      | some r => loadGo r.1 r.2 l2
      | none => none := by
  induction l1 with
  | nil => intro s sh; rfl
  | cons kv rest ih =>
    intro s sh
    obtain ⟨k, v⟩ := kv
    rw [List.cons_append]
    simp only [loadGo]
    cases hk : attrKind k <;> simp only [hk] <;> first | rfl | exact ih _ _

theorem getField_loadGo (f : StateField) :
    ∀ (doc : List (String × Val)) (s : AgentState) (sh : List (String × Val)),
      (∀ kv ∈ doc, parseField kv.1 ≠ some f) →
      (∀ kv ∈ doc, attrKind kv.1 ≠ .raising) →
      ∃ s2 sh2, loadGo s sh doc = some (s2, sh2) ∧ getField f s2 = getField f s := by
  intro doc
  induction doc with
  | nil =>
    intro s sh _ _
    exact ⟨s, sh, rfl, rfl⟩
  | cons kv rest ih =>
    intro s sh h1 h2
    obtain ⟨k, v⟩ := kv
    have h1k : parseField k ≠ some f := h1 (k, v) (List.mem_cons_self _ _)
    have h2k : attrKind k ≠ .raising := h2 (k, v) (List.mem_cons_self _ _)
    have h1r : ∀ e ∈ rest, parseField e.1 ≠ some f :=
      fun e he => h1 e (List.mem_cons_of_mem _ he)
    have h2r : ∀ e ∈ rest, attrKind e.1 ≠ .raising :=
      fun e he => h2 e (List.mem_cons_of_mem _ he)
    simp only [loadGo]
    cases hk : attrKind k with
    | field g =>
      have hpg := attrKind_field_inv k g hk
      have hfg : f ≠ g := fun he => h1k (he ▸ hpg)
      obtain ⟨s2, sh2, heq, hget⟩ := ih (setF g v s) sh h1r h2r
      exact ⟨s2, sh2, heq, hget.trans (getField_setF f g v s hfg)⟩
    | shadow =>
      obtain ⟨s2, sh2, heq, hget⟩ := ih s (updateAssoc sh k v) h1r h2r
      exact ⟨s2, sh2, heq, hget⟩
    | raising => exact absurd hk h2k
    | missing =>
      obtain ⟨s2, sh2, heq, hget⟩ := ih s sh h1r h2r
      exact ⟨s2, sh2, heq, hget⟩

/-- C3: is_dead returns true exactly when current_bankroll is at or below
the death threshold; whenever it returns true the returned state has
is_alive false and the disk holds the full serialized state; and is_dead
never turns a dead state back alive. -/
theorem c3_death_check (thr : ℚ) (w : World) :
    ((isDead thr w).1 = true ↔ w.mem.current_bankroll ≤ thr) ∧
    ((isDead thr w).1 = true →
      (isDead thr w).2.mem.is_alive = false ∧
      (isDead thr w).2.disk = toDoc (isDead thr w).2.mem) ∧
    (w.mem.is_alive = false → (isDead thr w).2.mem.is_alive = false) := by
  unfold isDead save
  split_ifs with h
  · exact ⟨iff_of_true rfl h, fun _ => ⟨rfl, rfl⟩, fun _ => rfl⟩
  · exact ⟨iff_of_false (by simp) h, fun hh => absurd hh (by simp), fun ha => ha⟩

/-- C3 witness: a zero-bankroll world against threshold 0.50 dies and the
returned state has is_alive false. -/
theorem c3_witness :
    (isDead (1/2) wDead).1 = true ∧ (isDead (1/2) wDead).2.mem.is_alive = false := by
  have hle : wDead.mem.current_bankroll ≤ 1/2 := by norm_num [wDead, defaultState]
  have h1 := (c3_death_check (1/2) wDead).1.mpr hle
  exact ⟨h1, ((c3_death_check (1/2) wDead).2.1 h1).1⟩

/-- Document used by the C7 witness and counterexample. -/
def doc7 : List (String × Val) := [("current_bankroll", .num 3)]

/-- C7 (amended): saving then reloading reproduces every field of the
state, with no stray instance attributes.  On load, only a key that
names no attribute at all of the state object is ignored; a key naming a
non-field attribute (the methods save and load, most dunders) passes the
hasattr check and is setattr-ed as a shadowing instance attribute; a key
such as __dict__ or __class__, whose setattr raises, makes load discard
the whole document and return a fresh default state with started_at
stamped.  A field named by no key of a successfully merged document
keeps its schema default. -/
theorem c7_save_load_roundtrip (cfgStart : ℚ) (now : String) (s : AgentState)
    (doc : List (String × Val)) (k : String) (v : Val) (f : StateField) :
    load cfgStart now (toDoc s) = (s, []) ∧
    (attrKind k = .missing →
      load cfgStart now (doc ++ [(k, v)]) = load cfgStart now doc) ∧
    (attrKind k = .shadow →
      load cfgStart now (toDoc s ++ [(k, v)]) = (s, [(k, v)])) ∧
    (attrKind k = .raising →
      load cfgStart now (doc ++ [(k, v)]) =
        ({ defaultState cfgStart with started_at := now }, [])) ∧
    ((∀ kv ∈ doc, parseField kv.1 ≠ some f) →
      (∀ kv ∈ doc, attrKind kv.1 ≠ .raising) →
      getField f (load cfgStart now doc).1 = getField f (defaultState cfgStart)) := by
  refine ⟨?_, ?_, ?_, ?_, ?_⟩
  · unfold load
    rw [loadGo_toDoc]
  · intro hk
    unfold load
    rw [loadGo_append]
    cases hq : loadGo (defaultState cfgStart) [] doc with
    | none => rfl
    | some r => simp only [loadGo, hk]
  · intro hk
    unfold load
    rw [loadGo_append, loadGo_toDoc]
    simp only [loadGo, hk, updateAssoc]
  · intro hk
    unfold load
    rw [loadGo_append]
    cases hq : loadGo (defaultState cfgStart) [] doc with
    | none => rfl
    | some r => simp only [loadGo, hk]
  · intro h1 h2
    unfold load
    obtain ⟨s2, sh2, heq, hget⟩ := getField_loadGo f doc (defaultState cfgStart) [] h1 h2
    rw [heq]
    exact hget

/-- C7 witness: the round trip, an ignored truly-unknown key, and a
defaulted missing field, at concrete inputs. -/
theorem c7_witness :
    load 5 "t" (toDoc (defaultState 7)) = (defaultState 7, []) ∧
    load 5 "t" (doc7 ++ [("unknown_key", .num 1)]) = load 5 "t" doc7 ∧
    getField .totalTrades (load 5 "t" doc7).1 =
      getField .totalTrades (defaultState 5) := by
  refine ⟨(c7_save_load_roundtrip 5 "t" (defaultState 7) doc7 "unknown_key"
      (.num 1) .totalTrades).1,
    (c7_save_load_roundtrip 5 "t" (defaultState 7) doc7 "unknown_key"
      (.num 1) .totalTrades).2.1 (by decide),
    (c7_save_load_roundtrip 5 "t" (defaultState 7) doc7 "unknown_key"
      (.num 1) .totalTrades).2.2.2.2 (by decide) (by decide)⟩

/-- C7 counterexample: "__dict__" names no schema field, yet a document
carrying it is not loaded like one without it: the setattr raises, load
discards the merge, and current_bankroll comes back as the default 10
instead of the 3 the document holds; a "load" key is likewise absorbed
as a shadow instance attribute rather than ignored. -/
theorem c7_counterexample :
    parseField "__dict__" = none ∧
    (load 10 "t" (doc7 ++ [("__dict__", .num 1)])).1.current_bankroll = 10 ∧
    (load 10 "t" doc7).1.current_bankroll = 3 ∧
    (load 10 "t" (doc7 ++ [("load", .str "x")])).2 = [("load", .str "x")] ∧
    (load 10 "t" doc7).2 = [] :=
  ⟨rfl, rfl, rfl, rfl, rfl⟩

/-- C8 (amended): health_report is read-only exactly when the bankroll is
above the death threshold; at or below it, the embedded is_dead call sets
is_alive to false and persists the state as a side effect.  The returned
diagnostics satisfy net_profit = total_pnl - total_api_cost and
runway_cycles = max 0 (int((bankroll - threshold) / 2)). -/
theorem c8_health_report (thr : ℚ) (w : World) :
    (thr < w.mem.current_bankroll → (healthReport thr w).2 = w) ∧
    (w.mem.current_bankroll ≤ thr →
      (healthReport thr w).2.mem = { w.mem with is_alive := false } ∧
      (healthReport thr w).2.disk = toDoc { w.mem with is_alive := false }) ∧
    (healthReport thr w).1.net_profit = w.mem.total_pnl - w.mem.total_api_cost ∧
    (healthReport thr w).1.runway_cycles =
      max 0 (truncToInt ((w.mem.current_bankroll - thr) / 2)) := by
  unfold healthReport isDead save
  split_ifs with h
  · exact ⟨fun hlt => absurd h (not_le.mpr hlt), fun _ => ⟨rfl, rfl⟩, rfl, rfl⟩
  · push_neg at h
    exact ⟨fun _ => rfl, fun hle => absurd hle (not_le.mpr h), rfl, rfl⟩

/-- C8 witness: on a world whose bankroll 50 is above threshold 1,
health_report leaves the world untouched. -/
theorem c8_witness : (healthReport 1 wAlive).2 = wAlive :=
  (c8_health_report 1 wAlive).1 (by norm_num [wAlive, defaultState])

/-- C8 counterexample: on a zero-bankroll world, health_report is not
read-only: its embedded is_dead call flips is_alive to false and rewrites
the disk, so the returned world differs from the input. -/
theorem c8_counterexample :
    (healthReport (1/2) wDead).2.mem.is_alive = false ∧
    wDead.mem.is_alive = true ∧
    (healthReport (1/2) wDead).2 ≠ wDead := by
  refine ⟨?_, rfl, ?_⟩
  · norm_num [healthReport, isDead, save, wDead, defaultState]
  · intro h
    have h2 := congrArg (fun x => x.mem.is_alive) h
    norm_num [healthReport, isDead, save, wDead, defaultState] at h2

/-- C9 (amended): when the balance query fails the bankroll is unchanged;
when it returns b, the tracked bankroll is overwritten with b and the
state persisted exactly when b > 0 and the drift exceeds 0.50; a
non-positive balance or a drift within the threshold leaves the world
unchanged. -/
theorem c9_sync_balance (w : World) (b : ℚ) :
    syncBalanceFromChain w none = w ∧
    (0 < b → 1/2 < |b - w.mem.current_bankroll| →
      (syncBalanceFromChain w (some b)).mem = { w.mem with current_bankroll := b } ∧
      (syncBalanceFromChain w (some b)).disk =
        toDoc { w.mem with current_bankroll := b }) ∧
    (¬ (0 < b ∧ 1/2 < |b - w.mem.current_bankroll|) →
      syncBalanceFromChain w (some b) = w) := by
  refine ⟨rfl, ?_, ?_⟩
  · intro hb hd
    simp only [syncBalanceFromChain, save]
    rw [if_pos hb, if_pos hd]
    exact ⟨rfl, rfl⟩
  · intro hn
    simp only [syncBalanceFromChain, save]
    split_ifs with h1 h2
    · exact absurd ⟨h1, h2⟩ hn
    · rfl
    · rfl

/-- C9 witness: a positive balance with large drift overwrites the
tracked bankroll. -/
theorem c9_witness : (syncBalanceFromChain wAlive (some 60)).mem.current_bankroll = 60 := by
  rw [((c9_sync_balance wAlive 60).2.1 (by norm_num) (by norm_num [wAlive, defaultState])).1]

/-- C9 counterexample: a returned balance of 0 with tracked bankroll 50
has drift 50 > 0.50, yet sync_balance_from_chain leaves the world
unchanged, against the claimed "overwritten iff drift exceeds 0.50". -/
theorem c9_counterexample :
    syncBalanceFromChain wAlive (some 0) = wAlive ∧
    (1/2 : ℚ) < |(0 : ℚ) - wAlive.mem.current_bankroll| := by
  constructor
  · simp [syncBalanceFromChain]
  · norm_num [wAlive, defaultState]

/-- C10: record_trade increments total_trades by one and exactly one of
winning_trades (when pnl > 0) or losing_trades (when pnl ≤ 0, so a
break-even trade counts as a loss), and preserves the invariant
winning_trades + losing_trades = total_trades. -/
theorem c10_record_trade (pnl c : ℚ) (now : String) (w : World) :
    (recordTrade pnl c now w).mem.total_trades = w.mem.total_trades + 1 ∧
    (0 < pnl →
      (recordTrade pnl c now w).mem.winning_trades = w.mem.winning_trades + 1 ∧
      (recordTrade pnl c now w).mem.losing_trades = w.mem.losing_trades) ∧
    (pnl ≤ 0 →
      (recordTrade pnl c now w).mem.losing_trades = w.mem.losing_trades + 1 ∧
      (recordTrade pnl c now w).mem.winning_trades = w.mem.winning_trades) ∧
    (w.mem.winning_trades + w.mem.losing_trades = w.mem.total_trades →
      (recordTrade pnl c now w).mem.winning_trades +
        (recordTrade pnl c now w).mem.losing_trades =
        (recordTrade pnl c now w).mem.total_trades) := by
  unfold recordTrade save appendHistory applyPnl recordWinLoss recordCounts
  split_ifs with hp
  · refine ⟨rfl, fun _ => ⟨rfl, rfl⟩, fun hle => absurd hp (not_lt.mpr hle), fun hinv => ?_⟩
    dsimp only
    omega
  · refine ⟨rfl, fun hgt => absurd hgt hp, fun _ => ⟨rfl, rfl⟩, fun hinv => ?_⟩
    dsimp only
    omega

/-- C10 witness: a winning trade at a concrete world increments the win
counter. -/
theorem c10_witness :
    (recordTrade 1 0 "" wAlive).mem.winning_trades = wAlive.mem.winning_trades + 1 :=
  ((c10_record_trade 1 0 "" wAlive).2.1 (by norm_num)).1

/-! ## Trade execution (executor.py)

The exchange connector is modelled as an oracle: the order-book query
returns either an exception message or the list of resting ask prices,
and the order submission step has one of four outcomes (an exception
before post_order, an exception from post_order itself, a dict response,
or a non-dict response).  The Bool paired with the ExecutionResult records
whether post_order was reached, so that "no order is sent" is provable. -/

/-- Character-list test: does the first list start the second. -/
def startsWithChars : List Char → List Char → Bool
  | [], _ => true
  | _ :: _, [] => false
  | p :: ps, c :: cs => p = c && startsWithChars ps cs

/-- Character-list substring test. -/
def hasSubChars : List Char → List Char → Bool
  | [], pat => pat.isEmpty
  | s@(_ :: t), pat => startsWithChars pat s || hasSubChars t pat

/-- Python "pat in s.lower()" for a lowercase pattern. -/
def strHasSub (s pat : String) : Bool :=
  hasSubChars (s.toList.map Char.toLower) pat.toList

/-- The systemic-error test of execute_batch (executor.py lines 173-177). -/
def isSystemicError (e : String) : Bool :=
  strHasSub e "auth" || strHasSub e "network" || strHasSub e "rate"

/-- ExecutionResult (executor.py lines 33-40). -/
structure ExecutionResult where
  signal : TradeSignal
  success : Bool
  order_id : Option String
  fill_price : Option ℚ
  fill_amount : Option ℚ
  error : Option String
deriving DecidableEq

/-- Outcome of the submission phase of execute (lines 104-113): an
exception in create_market_order (before any order is sent), an exception
in post_order, a dict response (orderID and id entries as optional
strings, status defaulting to "", and its str() rendering used in error
text), or a non-dict response modelled as an optional string (none for
Python None). -/
inductive PostOrderOutcome where
  | raisedBeforeSubmit (msg : String)
  | raisedAfterSubmit (msg : String)
  | respDict (orderID idField : Option String) (status : String) (raw : String)
  | respOther (s : Option String)
deriving DecidableEq

/-- One interaction with the exchange connector during execute. -/
structure ExchangeEnv where
  book : Except String (List ℚ)
  post : PostOrderOutcome

/-- Python "a or b" on optional strings: a unless a is None or empty. -/
def pyOrStr (a b : Option String) : Option String :=
  match a with
  | some s => if s = "" then b else some s
  | none => b

/-- Python s[:n]. -/
def takeChars (n : ℕ) (s : String) : String := String.mk (s.toList.take n)

/-- The failure ExecutionResult shape used at lines 85-89, 96-100 and
156-159: no order id, no fill, an error message. -/
def failResult (sig : TradeSignal) (e : String) : ExecutionResult :=
  { signal := sig, success := false, order_id := none,
    fill_price := none, fill_amount := none, error := some e }

/-- Response parsing for a dict response (lines 120-124, 131-138). -/
def dictResult (sig : TradeSignal) (bestAsk : ℚ)
    (orderID idField : Option String) (status raw : String) : ExecutionResult :=
  { signal := sig
    success := (pyOrStr orderID idField).isSome || status == "matched" || status == "filled"
    order_id := pyOrStr orderID idField
    fill_price := some bestAsk
    fill_amount :=
      if (pyOrStr orderID idField).isSome || status == "matched" || status == "filled" then
        some sig.position_size_usd
      else none
    error :=
      if (pyOrStr orderID idField).isSome || status == "matched" || status == "filled" then
        none
      else some ("Response: " ++ takeChars 200 raw) }

/-- Response parsing for a non-dict response (lines 125-138): order_id is
str(resp) when resp is truthy, success whenever resp is not None. -/
def otherResult (sig : TradeSignal) (bestAsk : ℚ) (s : Option String) : ExecutionResult :=
  { signal := sig
    success := s.isSome
    order_id := match s with
      | some t => if t = "" then none else some t
      | none => none
    fill_price := some bestAsk
    fill_amount := if s.isSome then some sig.position_size_usd else none
    error := if s.isSome then none else some "Empty response from post_order" }

/-- The slippage bound of execute (line 94). -/
def maxAcceptable (sig : TradeSignal) : ℚ :=
  min (sig.entry_price * (105/100)) (99/100)

/-- TradeExecutor.execute (executor.py lines 66-159).  The second
component records whether post_order was reached (an order submitted).
The fixed error strings keep the wording of the source without the
interpolated numbers. -/
def execute (sig : TradeSignal) (env : ExchangeEnv) : ExecutionResult × Bool :=
  match env.book with
  | .error e => (failResult sig e, false)
  | .ok [] => (failResult sig "No asks in order book — market may be illiquid", false)
  | .ok (bestAsk :: _) =>
    if bestAsk > maxAcceptable sig then
      (failResult sig "Slippage: best_ask above max_acceptable", false)
    else
      match env.post with
      | .raisedBeforeSubmit msg => (failResult sig msg, false)
      | .raisedAfterSubmit msg => (failResult sig msg, true)
      | .respDict orderID idField status raw =>
        (dictResult sig bestAsk orderID idField status raw, true)
      | .respOther s => (otherResult sig bestAsk s, true)

/-- The ExecutionResult of one execute call. -/
def executeOne (sig : TradeSignal) (env : ExchangeEnv) : ExecutionResult :=
  (execute sig env).1

/-- The batch-abort test of execute_batch (lines 172-179). -/
def isSystemicResult (r : ExecutionResult) : Bool :=
  !r.success && (match r.error with
    | some e => isSystemicError e
    | none => false)

/-- TradeExecutor.execute_batch (executor.py lines 161-181), with one
connector interaction per signal. -/
def executeBatch : List TradeSignal → List ExchangeEnv → List ExecutionResult
  | [], _ => []
  | _ :: _, [] => []
  | sig :: sigs, env :: envs =>
    if isSystemicResult (executeOne sig env) then [executeOne sig env]
    else executeOne sig env :: executeBatch sigs envs

/-- Truncation of a list right after the first element satisfying p; used
to state the fail-fast property of execute_batch. -/
def stopAfterFirst {α : Type} (p : α → Bool) : List α → List α
  | [] => []
  | r :: rs => r :: (if p r then [] else stopAfterFirst p rs)

theorem stopAfterFirst_exists_suffix {α : Type} (p : α → Bool) (l : List α) :
    ∃ t, l = stopAfterFirst p l ++ t := by
  induction l with
  | nil => exact ⟨[], rfl⟩
  | cons r rs ih =>
    rw [stopAfterFirst]
    split_ifs with hp
    · exact ⟨rs, rfl⟩
    · obtain ⟨t, ht⟩ := ih
      refine ⟨t, ?_⟩
      rw [List.cons_append, ← ht]

theorem stopAfterFirst_decomp {α : Type} (p : α → Bool) :
    ∀ (l l₁ l₂ : List α) (r : α), stopAfterFirst p l = l₁ ++ r :: l₂ →
      (p r = true → l₂ = []) ∧
      (p r = false → l₁.length + 1 < l.length → l₂ ≠ []) := by
  intro l
  induction l with
  | nil =>
    intro l₁ l₂ r h
    simp only [stopAfterFirst] at h
    exact absurd h (by simp)
  | cons a as ih =>
    intro l₁ l₂ r h
    rw [stopAfterFirst] at h
    cases l₁ with
    | nil =>
      rw [List.nil_append] at h
      injection h with h1 h2
      subst h1
      constructor
      · intro hp
        rw [if_pos hp] at h2
        exact h2.symm
      · intro hp hlen
        rw [if_neg (by simp [hp])] at h2
        cases as with
        | nil =>
          simp only [List.length_nil, List.length_cons] at hlen
          omega
        | cons b bs =>
          rw [← h2, stopAfterFirst]
          simp
    | cons b l₁ =>
      rw [List.cons_append] at h
      injection h with h1 h2
      cases hpa : p a with
      | true =>
        rw [if_pos hpa] at h2
        exact absurd h2.symm (by simp)
      | false =>
        rw [if_neg (by simp [hpa])] at h2
        obtain ⟨c1, c2⟩ := ih l₁ l₂ r h2
        refine ⟨c1, fun hp hlen => c2 hp ?_⟩
        simp only [List.length_cons] at hlen ⊢
        omega

theorem executeBatch_eq_stop (sigs : List TradeSignal) (envs : List ExchangeEnv) :
    executeBatch sigs envs =
      stopAfterFirst isSystemicResult (List.zipWith executeOne sigs envs) := by
  induction sigs generalizing envs with
  | nil => simp [executeBatch, stopAfterFirst]
  | cons sig sigs ih =>
    cases envs with
    | nil => simp [executeBatch, stopAfterFirst]
    | cons env envs =>
      rw [executeBatch, List.zipWith_cons_cons, stopAfterFirst]
      split_ifs with hp
      · rfl
      · rw [ih]

/-- A concrete signal (entry price 0.50, size 6.00) for the executor
witnesses and counterexamples. -/
def sigA : TradeSignal :=
  { estimate := est1, side := .yes, token_id := "tokYes", entry_price := 1/2,
    fair_price := 3/4, edge := 1/4, kelly_fraction := 1/2, capped_fraction := 3/50,
    position_size_usd := 6, expected_value := 3/2 }

/-- Order book with no resting asks. -/
def envEmptyBook : ExchangeEnv :=
  { book := .ok [], post := .respOther none }

/-- A healthy connector: best ask 0.50 and a matched response with id. -/
def envOk : ExchangeEnv :=
  { book := .ok [1/2], post := .respDict (some "ord1") none "matched" "resp" }

/-- A dict response with matched status but no order identifier. -/
def envMatchedNoId : ExchangeEnv :=
  { book := .ok [1/2], post := .respDict none none "matched" "status matched" }

/-- C4: execute submits no order and returns a failure result (success
false, no order id, an error message) whenever the fetched book has no
resting asks or the best ask exceeds min(entry_price * 1.05, 0.99); an
order is submitted only when some best ask is within that bound. -/
theorem c4_execute_guard (sig : TradeSignal) (env : ExchangeEnv) :
    (env.book = .ok [] →
      (execute sig env).2 = false ∧
      (execute sig env).1.success = false ∧
      (execute sig env).1.order_id = none ∧
      (execute sig env).1.error.isSome = true) ∧
    (∀ a rest, env.book = .ok (a :: rest) → maxAcceptable sig < a →
      (execute sig env).2 = false ∧
      (execute sig env).1.success = false ∧
      (execute sig env).1.order_id = none ∧
      (execute sig env).1.error.isSome = true) ∧
    ((execute sig env).2 = true →
      ∃ a rest, env.book = .ok (a :: rest) ∧ a ≤ maxAcceptable sig) := by
  obtain ⟨book, post⟩ := env
  cases book with
  | error e =>
    refine ⟨fun h => absurd h (by simp), fun a rest h => absurd h (by simp), fun h => ?_⟩
    exact absurd h (by simp [execute])
  | ok asks =>
    cases asks with
    | nil =>
      refine ⟨fun _ => ⟨rfl, rfl, rfl, rfl⟩, fun a rest h => absurd h (by simp), fun h => ?_⟩
      exact absurd h (by simp [execute])
    | cons a rest =>
      refine ⟨fun h => absurd h (by simp), ?_, ?_⟩
      · intro a2 rest2 heq hlt
        have h1 : a = a2 := by
          have := Except.ok.inj heq
          exact (List.cons.inj this).1
        have hgt : a > maxAcceptable sig := h1 ▸ hlt
        simp only [execute]
        rw [if_pos hgt]
        exact ⟨rfl, rfl, rfl, rfl⟩
      · intro hsub
        by_cases hgt : a > maxAcceptable sig
        · simp only [execute] at hsub
          rw [if_pos hgt] at hsub
          exact absurd hsub (by simp)
        · exact ⟨a, rest, rfl, not_lt.mp hgt⟩

/-- C4 witness: an empty order book yields a failure with no submission. -/
theorem c4_witness :
    (execute sigA envEmptyBook).2 = false ∧
    (execute sigA envEmptyBook).1.success = false ∧
    (execute sigA envEmptyBook).1.order_id = none := by
  have h := (c4_execute_guard sigA envEmptyBook).1 rfl
  exact ⟨h.1, h.2.1, h.2.2.1⟩

/-- C5: execute_batch equals the pointwise execution of the batch
truncated right after the first systemic failure: results come strictly
in input order, the pointwise results extend the batch results, and in
any decomposition of the results a systemic failure is the last entry
while a non-systemic result (in particular a local failure) is followed
by another result whenever more signals remain. -/
theorem c5_execute_batch_failfast (sigs : List TradeSignal) (envs : List ExchangeEnv) :
    executeBatch sigs envs =
      stopAfterFirst isSystemicResult (List.zipWith executeOne sigs envs) ∧
    (∃ t, List.zipWith executeOne sigs envs = executeBatch sigs envs ++ t) ∧
    (∀ l₁ r l₂, executeBatch sigs envs = l₁ ++ r :: l₂ →
      (isSystemicResult r = true → l₂ = []) ∧
      (isSystemicResult r = false →
        l₁.length + 1 < (List.zipWith executeOne sigs envs).length → l₂ ≠ [])) := by
  refine ⟨executeBatch_eq_stop sigs envs, ?_, ?_⟩
  · obtain ⟨t, ht⟩ := stopAfterFirst_exists_suffix isSystemicResult
      (List.zipWith executeOne sigs envs)
    exact ⟨t, by rw [executeBatch_eq_stop sigs envs, ← ht]⟩
  · intro l₁ r l₂ h
    rw [executeBatch_eq_stop sigs envs] at h
    exact stopAfterFirst_decomp isSystemicResult
      (List.zipWith executeOne sigs envs) l₁ l₂ r h

/-- C5 witness: after a local (illiquid-market) failure the next signal
of the batch is still executed. -/
theorem c5_witness : ([executeOne sigA envEmptyBook] : List ExecutionResult) ≠ [] :=
  (((c5_execute_batch_failfast [sigA, sigA] [envEmptyBook, envEmptyBook]).2.2
      [] (executeOne sigA envEmptyBook) [executeOne sigA envEmptyBook] rfl).2
    (by decide) (by decide))

/-- C6 (amended): every result of execute has exactly one of success with
no error, or failure with an error message and no order id; success does
not guarantee an order id (a matched status without an id yields success
with order_id none). -/
theorem c6_execution_result_invariant (sig : TradeSignal) (env : ExchangeEnv) :
    ((execute sig env).1.success = true ∧ (execute sig env).1.error = none) ∨
    ((execute sig env).1.success = false ∧ (execute sig env).1.error ≠ none ∧
      (execute sig env).1.order_id = none) := by
  obtain ⟨book, post⟩ := env
  cases book with
  | error e => exact Or.inr ⟨rfl, by simp [execute, failResult], rfl⟩
  | ok asks =>
    cases asks with
    | nil => exact Or.inr ⟨rfl, by simp [execute, failResult], rfl⟩
    | cons a rest =>
      simp only [execute]
      split_ifs with hgt
      · exact Or.inr ⟨rfl, by simp [failResult], rfl⟩
      · cases post with
        | raisedBeforeSubmit msg => exact Or.inr ⟨rfl, by simp [failResult], rfl⟩
        | raisedAfterSubmit msg => exact Or.inr ⟨rfl, by simp [failResult], rfl⟩
        | respDict orderID idField status raw =>
          cases hb : ((pyOrStr orderID idField).isSome || status == "matched"
              || status == "filled") with
          | true =>
            refine Or.inl ⟨?_, ?_⟩ <;> simp [dictResult, hb]
          | false =>
            refine Or.inr ⟨?_, ?_, ?_⟩
            · simp [dictResult, hb]
            · simp [dictResult, hb]
            · have hid : (pyOrStr orderID idField).isSome = false := by
                cases hia : (pyOrStr orderID idField).isSome with
                | false => rfl
                | true => rw [hia] at hb; simp at hb
              simp only [dictResult]
              exact Option.not_isSome_iff_eq_none.mp (by simp [hid])
        | respOther s =>
          cases s with
          | none => exact Or.inr ⟨rfl, by simp [otherResult], rfl⟩
          | some t =>
            refine Or.inl ⟨?_, ?_⟩ <;> simp [otherResult]

/-- C6 counterexample: a matched response with no order identifier yields
a successful result whose order_id is none, so success does not imply an
order identifier is present. -/
theorem c6_counterexample :
    (execute sigA envMatchedNoId).1.success = true ∧
    (execute sigA envMatchedNoId).1.order_id = none := by
  constructor <;>
    norm_num [execute, dictResult, pyOrStr, maxAcceptable, sigA, envMatchedNoId, est1, mkt1]

end AiAgent
